import Mathlib

/-!
Verification of the GDAX exchange adapter (`js/gdax.js`) against its
natural-language specification.

The adapter is shallowly embedded: each JS method that the claims touch is
translated into an executable Lean definition over explicit data.  External
base-class utilities that the spec declares out of scope (JSON serialization,
ISO-8601 date parsing and formatting, URL encoding, the HMAC primitive, the
nonce source) are passed in as explicit function parameters, since the claims
only constrain how the adapter composes them.  JSON numbers are modelled as
rationals, absent JS values (`undefined`) as `Option.none`.
-/

namespace Gdax

/-- The adapter id `this.id` (`describe`, `'id': 'gdax'`). -/
def exchangeId : String := "gdax"

/-- The api base URL `this.urls['api']` from `describe`. -/
def apiUrl : String := "https://api.gdax.com"

/-! ## String helpers

JS string primitives used by the source, re-implemented structurally over
`List Char` so that all definitions evaluate inside the kernel. -/

/-- JS `text.indexOf(pat) >= 0` on character lists: does `pat` occur as a
contiguous substring of `text`? -/
def listContains : List Char → List Char → Bool
  | [], pat => pat.isEmpty
  | c :: rest, pat => pat.isPrefixOf (c :: rest) || listContains rest pat

/-- JS `s.indexOf(pat) >= 0`. -/
def strContains (s pat : String) : Bool :=
  listContains s.toList pat.toList

/-- JS `String.prototype.replace` with a plain-string pattern: replace the
first occurrence of `pat` in `text` by `repl`. -/
def replaceFirst : List Char → List Char → List Char → List Char
  | [], _, _ => []
  | c :: rest, pat, repl =>
    if pat.isPrefixOf (c :: rest) then repl ++ (c :: rest).drop pat.length
    else c :: replaceFirst rest pat repl

/-! ## Base-class request helpers

`implodeParams`, `extractParams` and `omit` are the generic helpers of the
shared client framework that `sign` composes; their behaviour on the
well-formed `{param}` path templates of this adapter is reproduced here. -/

/-- Scanner for `extractParams`: collect the names between each balanced
pair of braces, mirroring the regex that matches every occurrence of a
brace-delimited name.  The second argument is `some acc` while inside an
open brace. -/
def extractParamsAux : List Char → Option (List Char) → List String
  | [], _ => []
  | c :: rest, none =>
    if c = '\x7b' then extractParamsAux rest (some [])
    else extractParamsAux rest none
  | c :: rest, some acc =>
    if c = '\x7d' then String.mk acc.reverse :: extractParamsAux rest none
    else extractParamsAux rest (some (acc ++ [c]))

/-- Base-class `extractParams`: the placeholder names appearing in a path
template such as `"products/\x7bid\x7d/candles"`. -/
def extractParams (path : String) : List String :=
  extractParamsAux path.toList none

/-- Base-class `implodeParams`: substitute each parameter value for its
brace-delimited placeholder in the path template. -/
def implodeParams (path : String) (params : List (String × String)) : String :=
  params.foldl
    (fun s kv =>
      String.mk (replaceFirst s.toList ("\x7b" ++ kv.1 ++ "\x7d").toList kv.2.toList))
    path

/-- Base-class `omit` (named `omitKeys` here because `omit` is reserved in
Lean): drop the pairs whose key is listed in `keys`. -/
def omitKeys (params : List (String × String)) (keys : List String) : List (String × String) :=
  params.filter (fun kv => !(keys.contains kv.1))

/-! ## Error taxonomy -/

/-- The typed errors the adapter throws (`base/errors`). -/
inductive GdaxError
  | invalidOrder (msg : String)
  | insufficientFunds (msg : String)
  | authenticationError (msg : String)
  | notSupported (msg : String)
  | exchangeError (msg : String)
  deriving Repr, DecidableEq

/-- Outcome of `handleErrors`: either a typed throw, a silent pass-through
(the JS method returns `undefined`), or a native JS runtime error
(`JSON.parse` SyntaxError on a malformed body, or TypeError when `message`
is absent). -/
inductive HandleErrorsResult
  | throws (e : GdaxError)
  | passes
  | nativeError
  deriving Repr, DecidableEq

/-- Embedding of `handleErrors (code, reason, url, method, headers, body)` from the
source; only `code` and `body` are consulted.  `parse` models the external
`JSON.parse` primitive, returning the parsed object's string fields (the
source reads only `response['message']`), or `none` when the body is not
valid JSON. -/
def handleErrors (parse : String → Option (List (String × String)))
    (code : Nat) (body : String) : HandleErrorsResult :=
  if code = 400 then
    -- JS `body[0] === '\x7b'`: first character test; an empty body has
    -- `body[0] === undefined`, which compares unequal.
    let firstIsBrace : Bool := match body.toList with | c :: _ => c = '\x7b' | [] => false
    if firstIsBrace then
      match parse body with
      | none => .nativeError
      | some fields =>
        match List.lookup "message" fields with
        | none => .nativeError
        | some message =>
          let error := exchangeId ++ " " ++ message
          if strContains message "price too small" then .throws (.invalidOrder error)
          else if strContains message "price too precise" then .throws (.invalidOrder error)
          else if message = "Insufficient funds" then .throws (.insufficientFunds error)
          else if message = "Invalid API Key" then .throws (.authenticationError error)
          else .throws (.exchangeError (exchangeId ++ " " ++ message))
    else .throws (.exchangeError (exchangeId ++ " " ++ body))
  else .passes

/-! ## Candles -/

/-- Embedding of `parseOHLCV`: reshape one upstream candle row.  The upstream delivers
`[time, low, high, open, close, volume]` (seconds); the source returns
`[ohlcv[0]*1000, ohlcv[3], ohlcv[2], ohlcv[1], ohlcv[4], ohlcv[5]]`.
Rows shorter than six entries would read `undefined` in JS; they are
mapped to `[]` here and are outside every claim. -/
def parseOHLCV (ohlcv : List ℚ) : List ℚ :=
  match ohlcv with
  | o0 :: o1 :: o2 :: o3 :: o4 :: o5 :: _ =>
    [o0 * 1000, o3, o2, o1, o4, o5]
  | _ => []

/-! ## Markets (`fetchMarkets`) -/

/-- The `'trading'` block of the fee structure in `describe`. -/
structure TradingFees where
  tierBased : Bool
  percentage : Bool
  maker : ℚ
  taker : ℚ
  deriving Repr, DecidableEq

/-- The default `this.fees['trading']` as configured in `describe`
(`maker 0.0`, `taker 0.25 / 100`). -/
def describeTradingFees : TradingFees :=
  { tierBased := true, percentage := true, maker := 0, taker := 0.25 / 100 }

/-- One raw product object from `GET /products`.  `quote_increment` is a
decimal string in the upstream payload; numeric limits are modelled as the
already-parsed optional numbers that `safeFloat` produces. -/
structure RawMarket where
  id : String
  base_currency : String
  quote_currency : String
  quote_increment : Option String
  base_min_size : Option ℚ
  base_max_size : Option ℚ
  min_market_funds : Option ℚ
  max_market_funds : Option ℚ
  status : String
  deriving Repr, DecidableEq

/-- The min/max limit pairs of a canonical market. -/
structure MarketLimits where
  amountMin : Option ℚ
  amountMax : Option ℚ
  priceMin : Option ℚ
  priceMax : Option ℚ
  costMin : Option ℚ
  costMax : Option ℚ
  deriving Repr, DecidableEq

/-- A canonical market record as pushed by `fetchMarkets`; the raw payload
(`info`) is kept alongside the normalized fields. -/
structure Market where
  id : String
  symbol : String
  base : String
  quote : String
  tierBased : Bool
  percentage : Bool
  maker : ℚ
  taker : ℚ
  precisionAmount : Nat
  precisionPrice : Option Nat
  limits : MarketLimits
  active : Bool
  info : RawMarket
  deriving Repr, DecidableEq

/-- External helpers consumed by `fetchMarkets`: `precisionFromString`
(digit count after the decimal point of an increment string) and the
float parser behind `safeFloat` for string-valued fields. -/
structure MarketCtx where
  precisionFromString : String → Nat
  parseNum : String → Option ℚ

/-- The body of the `fetchMarkets` loop for a single raw product: symbol is
`base + "/" + quote`, amount precision is fixed at 8, the taker fee starts
from the global trading default and is overridden to `0.003` when the base
currency is ETH or LTC, and `active` is `status === 'online'`. -/
def normalizeMarket (ctx : MarketCtx) (fees : TradingFees) (market : RawMarket) : Market :=
  let base := market.base_currency
  let quote := market.quote_currency
  let taker := if base = "ETH" ∨ base = "LTC" then (0.003 : ℚ) else fees.taker
  { id := market.id
    symbol := base ++ "/" ++ quote
    base := base
    quote := quote
    tierBased := fees.tierBased
    percentage := fees.percentage
    maker := fees.maker
    taker := taker
    precisionAmount := 8
    precisionPrice := market.quote_increment.map ctx.precisionFromString
    limits :=
      { amountMin := market.base_min_size
        amountMax := market.base_max_size
        priceMin := market.quote_increment.bind ctx.parseNum
        priceMax := none
        costMin := market.min_market_funds
        costMax := market.max_market_funds }
    active := market.status = "online"
    info := market }

/-- Embedding of `fetchMarkets` after the transport call: normalize every raw product in
order. -/
def fetchMarkets (ctx : MarketCtx) (fees : TradingFees) (markets : List RawMarket) : List Market :=
  markets.map (normalizeMarket ctx fees)

/-! ## Trades (`parseTrade`) -/

/-- External date helpers shared by the normalizers, plus the
market-by-native-id index maintained by the host. -/
structure NormCtx where
  parse8601 : String → Option Int
  iso8601 : Int → String
  marketsById : List (String × Market)

/-- A canonical fee record (`rate` is always unset by this adapter). -/
structure Fee where
  cost : Option ℚ
  currency : Option String
  rate : Option ℚ
  deriving Repr, DecidableEq

/-- One raw fill/trade payload.  `none` models an absent key (the JS
`'key' in trade` test); numeric fields carry the value `safeFloat` would
produce. -/
structure RawTrade where
  time : Option String
  created_at : Option String
  side : String
  price : Option ℚ
  size : Option ℚ
  liquidity : Option String
  fill_fees : Option ℚ
  product_id : Option String
  trade_id : Option String
  order_id : Option String
  deriving Repr, DecidableEq

/-- A canonical trade record. -/
structure Trade where
  id : Option String
  order : Option String
  timestamp : Option Int
  datetime : Option String
  symbol : Option String
  type : Option String
  side : String
  price : Option ℚ
  amount : Option ℚ
  fee : Option Fee
  info : RawTrade
  deriving Repr, DecidableEq

/-- Embedding of `parseTrade`: timestamp from `time`, else `created_at`; side flipped
relative to the payload (`'buy'` becomes `'sell'`, anything else `'buy'`);
market resolved through the by-id index when no market argument is given;
fee present only when the payload has a `fill_fees` key; liquidity flag
`'T'` maps to `'Taker'`, anything else to `'Maker'`. -/
def parseTrade (ctx : NormCtx) (trade : RawTrade) (market₀ : Option Market) : Trade :=
  let timestamp : Option Int :=
    match trade.time with
    | some t => ctx.parse8601 t
    | none =>
      match trade.created_at with
      | some t => ctx.parse8601 t
      | none => none
  let iso : Option String := timestamp.map ctx.iso8601
  let side := if trade.side = "buy" then "sell" else "buy"
  let market : Option Market :=
    match market₀ with
    | some m => some m
    | none =>
      match trade.product_id with
      | some marketId => List.lookup marketId ctx.marketsById
      | none => none
  let symbol : Option String := market.map (fun m => m.symbol)
  let fee : Option Fee :=
    match trade.fill_fees with
    | some cost =>
      some { cost := some cost, currency := market.map (fun m => m.quote), rate := none }
    | none => none
  let type : Option String :=
    match trade.liquidity with
    | some l => some (if l = "T" then "Taker" else "Maker")
    | none => none
  { id := trade.trade_id
    order := trade.order_id
    timestamp := timestamp
    datetime := iso
    symbol := symbol
    type := type
    side := side
    price := trade.price
    amount := trade.size
    fee := fee
    info := trade }

/-! ## Orders (`parseOrderStatus`, `parseOrder`) -/

/-- One raw order payload from the private orders endpoints. -/
structure RawOrder where
  id : String
  created_at : String
  product_id : Option String
  status : String
  price : Option ℚ
  size : Option ℚ
  funds : Option ℚ
  specified_funds : Option ℚ
  filled_size : Option ℚ
  executed_value : Option ℚ
  fill_fees : Option ℚ
  type : String
  side : String
  deriving Repr, DecidableEq

/-- A canonical order record. -/
structure Order where
  id : String
  timestamp : Option Int
  datetime : Option String
  status : String
  symbol : Option String
  type : String
  side : String
  price : Option ℚ
  cost : Option ℚ
  amount : Option ℚ
  filled : Option ℚ
  remaining : Option ℚ
  fee : Fee
  info : RawOrder
  deriving Repr, DecidableEq

/-- Embedding of `parseOrderStatus`: the fixed status table, unknown statuses pass
through unchanged (`safeString (statuses, status, status)`). -/
def parseOrderStatus (status : String) : String :=
  let statuses : List (String × String) :=
    [("pending", "open"), ("active", "open"), ("open", "open"),
     ("done", "closed"), ("canceled", "canceled")]
  (List.lookup status statuses).getD status

/-- Embedding of `parseOrder`: amount falls back through `size`, then `funds`, then
`specified_funds`, stopping at the first defined value; `remaining` is
`amount - filled` when both are defined; market is resolved through the
by-id index when no market argument is given. -/
def parseOrder (ctx : NormCtx) (order : RawOrder) (market₀ : Option Market) : Order :=
  let timestamp := ctx.parse8601 order.created_at
  let market : Option Market :=
    match market₀ with
    | some m => some m
    | none =>
      match order.product_id with
      | some pid => List.lookup pid ctx.marketsById
      | none => none
  let status := parseOrderStatus order.status
  let amount : Option ℚ :=
    match order.size with
    | some a => some a
    | none =>
      match order.funds with
      | some a => some a
      | none => order.specified_funds
  let filled := order.filled_size
  let remaining : Option ℚ :=
    match amount with
    | some a =>
      match filled with
      | some f => some (a - f)
      | none => none
    | none => none
  { id := order.id
    timestamp := timestamp
    datetime := timestamp.map ctx.iso8601
    status := status
    symbol := market.map (fun m => m.symbol)
    type := order.type
    side := order.side
    price := order.price
    cost := order.executed_value
    amount := amount
    filled := filled
    remaining := remaining
    fee := { cost := order.fill_fees, currency := none, rate := none }
    info := order }

/-! ## Deposit and withdraw routing -/

/-- A JS request value: string or number. -/
inductive Val
  | str (s : String)
  | num (q : ℚ)
  deriving Repr, DecidableEq

/-- Does the parameter object contain the key (JS `'key' in params`)? -/
def hasKey (params : List (String × Val)) (key : String) : Bool :=
  params.any (fun kv => kv.1 = key)

/-- Base-class `extend (a, b)` on objects: keys of `a` first (values
overridden by `b` where both are present), then the keys only in `b`. -/
def extend (a b : List (String × Val)) : List (String × Val) :=
  a.map (fun kv =>
      match List.lookup kv.1 b with
      | some v => (kv.1, v)
      | none => kv)
    ++ b.filter (fun kv => !(hasKey a kv.1))

/-- Embedding of `deposit (currency, amount, address, params)` up to the transport call:
either the name of the private method to invoke together with the request
object passed to it, or the typed error thrown before any request is
issued.  Routing: `payment_method_id` in the extra params selects the
payment-method variant, else `coinbase_account_id` selects the
Coinbase-account variant, else the call throws `NotSupported`. -/
def deposit (currency : String) (amount : ℚ) (_address : String)
    (params : List (String × Val)) : Except GdaxError (String × List (String × Val)) :=
  let request : List (String × Val) :=
    [("currency", .str currency), ("amount", .num amount)]
  let method := "privatePostDeposits"
  if hasKey params "payment_method_id" then
    .ok (method ++ "PaymentMethod", extend request params)
  else if hasKey params "coinbase_account_id" then
    .ok (method ++ "CoinbaseAccount", extend request params)
  else
    .error (.notSupported (exchangeId ++
      " deposit() requires one of `coinbase_account_id` or `payment_method_id` extra params"))

/-- Embedding of `withdraw (currency, amount, address, tag, params)` up to the transport
call.  Same two routing keys as `deposit`, but with no key present the call
falls through to the crypto variant and adds the address to the request as
`crypto_address`. -/
def withdraw (currency : String) (amount : ℚ) (address : String)
    (params : List (String × Val)) : Except GdaxError (String × List (String × Val)) :=
  let request : List (String × Val) :=
    [("currency", .str currency), ("amount", .num amount)]
  let method := "privatePostWithdrawals"
  if hasKey params "payment_method_id" then
    .ok (method ++ "PaymentMethod", extend request params)
  else if hasKey params "coinbase_account_id" then
    .ok (method ++ "CoinbaseAccount", extend request params)
  else
    .ok (method ++ "Crypto", extend (request ++ [("crypto_address", .str address)]) params)

/-! ## Candles request (`fetchOHLCV`) -/

/-- The `timeframes` table from `describe`. -/
def timeframes : List (String × Nat) :=
  [("1m", 60), ("5m", 300), ("15m", 900), ("30m", 1800), ("1h", 3600),
   ("2h", 7200), ("4h", 14400), ("12h", 43200), ("1d", 86400),
   ("1w", 604800), ("1M", 2592000), ("1y", 31536000)]

/-- The request object `fetchOHLCV` sends (before the caller-supplied
params are merged in).  `YmdHMS` is the external date formatter; `since`
is a millisecond timestamp.  When `since` is given: `start` is
`YmdHMS since`; `limit` defaults to 350 when undefined; `end` is
`YmdHMS (sum (limit * granularity * 1000, since))`.  A timeframe missing
from the table would make the JS arithmetic produce `NaN`; that case is
modelled as `none` and lies outside every claim. -/
def fetchOHLCVRequest (YmdHMS : Int → String) (marketId : String) (timeframe : String)
    (since : Option Int) (limit : Option Nat) : Option (List (String × Val)) :=
  match List.lookup timeframe timeframes with
  | none => none
  | some granularity =>
    let request : List (String × Val) :=
      [("id", .str marketId), ("granularity", .num (granularity : ℚ))]
    match since with
    | none => some request
    | some s =>
      let request := request ++ [("start", .str (YmdHMS s))]
      let lim : Nat := limit.getD 350
      some (request ++ [("end", .str (YmdHMS ((lim * granularity * 1000 : Nat) + s)))])

/-! ## Request signing (`sign`) -/

/-- The ambient state `sign` consults: the stored credentials (`none` when
unconfigured, checked by `checkRequiredCredentials`), the nonce source, and
the external serialization and crypto primitives.  `hmacSig secret what`
models the chain
`decode (hmac (encode what, base64ToBinary secret, sha256, base64))`. -/
structure SignEnv where
  apiKey : Option String
  secret : Option String
  password : Option String
  nonce : Nat
  urlencode : List (String × String) → String
  json : List (String × String) → String
  hmacSig : String → String → String

/-- The request descriptor `sign` returns. -/
structure SignResult where
  url : String
  method : String
  body : Option String
  headers : Option (List (String × String))
  deriving Repr, DecidableEq

/-- The `request` string of `sign` after the GET query-string step:
`'/' + implodeParams (path, params)`, with the urlencoded leftover query
appended after `?` when the method is GET and the query is non-empty.
This is both the path part of the returned URL and the `requestPath`
component of the signing string. -/
def requestPath (env : SignEnv) (path method : String) (params : List (String × String)) : String :=
  let request := "/" ++ implodeParams path params
  let query := omitKeys params (extractParams path)
  if method = "GET" ∧ query ≠ [] then request ++ "?" ++ env.urlencode query
  else request

/-- Embedding of `sign (path, api, method, params, headers, body)`.  For a private call:
credentials are checked first (`checkRequiredCredentials` throws an
`AuthenticationError` when any of apiKey/secret/password is missing); for a
non-GET with leftover query parameters the query is JSON-serialized, used
both as the request body and as the signing payload; the signing string is
`nonce + method + request + payload` with `payload = ''` otherwise; the
headers are replaced by the five CB-ACCESS / Content-Type headers. -/
def sign (env : SignEnv) (path api method : String) (params : List (String × String))
    (headers : Option (List (String × String))) (body : Option String) :
    Except GdaxError SignResult :=
  let request := requestPath env path method params
  let query := omitKeys params (extractParams path)
  let url := apiUrl ++ request
  if api = "private" then
    match env.apiKey, env.secret, env.password with
    | some apiKey, some secret, some password =>
      let nonce := toString env.nonce
      let bodyPayload : Option String × String :=
        if method ≠ "GET" ∧ query ≠ [] then (some (env.json query), env.json query)
        else (body, "")
      let what := nonce ++ method ++ request ++ bodyPayload.2
      let signature := env.hmacSig secret what
      .ok { url := url
            method := method
            body := bodyPayload.1
            headers := some
              [("CB-ACCESS-KEY", apiKey),
               ("CB-ACCESS-SIGN", signature),
               ("CB-ACCESS-TIMESTAMP", nonce),
               ("CB-ACCESS-PASSPHRASE", password),
               ("Content-Type", "application/json")] }
    | _, _, _ =>
      .error (.authenticationError (exchangeId ++ " requires apiKey, secret and password"))
  else
    .ok { url := url, method := method, body := body, headers := headers }

/-! ## Concrete test fixtures -/

/-- A normalizer context with trivial external date helpers and an empty
market index. -/
def testNormCtx : NormCtx :=
  { parse8601 := fun _ => some 1514764800000
    iso8601 := fun _ => "2018-01-01T00:00:00.000Z"
    marketsById := [] }

/-- A market-normalization context with simple external helpers. -/
def testMarketCtx : MarketCtx :=
  { precisionFromString := fun _ => 2
    parseNum := fun _ => some (1 / 100) }

/-- A public buy-side trade payload. -/
def rawBuyTrade : RawTrade :=
  { time := some "2018-01-01T00:00:00.000Z", created_at := none, side := "buy"
    price := some 100, size := some 1, liquidity := some "T"
    fill_fees := some (1 / 100), product_id := some "BTC-USD"
    trade_id := some "1", order_id := none }

/-- A private sell-side fill payload. -/
def rawSellTrade : RawTrade :=
  { time := none, created_at := some "2018-01-01T00:00:00.000Z", side := "sell"
    price := some 100, size := some 1, liquidity := some "M"
    fill_fees := some (1 / 100), product_id := some "BTC-USD"
    trade_id := some "2", order_id := some "o1" }

/-- An order payload carrying both `size` and `funds`. -/
def rawOrderBoth : RawOrder :=
  { id := "o1", created_at := "2018-01-01T00:00:00.000Z", product_id := some "BTC-USD"
    status := "done", price := some 10000, size := some 2, funds := some 3
    specified_funds := some 5, filled_size := some 1, executed_value := some 10000
    fill_fees := some 25, type := "limit", side := "buy" }

/-- A raw product whose base currency is ETH. -/
def rawMarketETH : RawMarket :=
  { id := "ETH-USD", base_currency := "ETH", quote_currency := "USD"
    quote_increment := some "0.01", base_min_size := some (1 / 100)
    base_max_size := some 5000, min_market_funds := some 10
    max_market_funds := some 1000000, status := "online" }

/-! ## Claims -/

/-- **C1** (corrected) — counterexample to the claim as stated: on the
concrete row `[1, 100, 90, 95, 80, 1000]` the code does not return
`[1000, 95, 100, 90, 80, 1000]` (the spec's example swaps the high and low
slots relative to the permutation the code performs). -/
theorem parseOHLCV_example_cex :
    ¬ (parseOHLCV [1, 100, 90, 95, 80, 1000] = [1000, 95, 100, 90, 80, 1000]) := by
  norm_num [parseOHLCV]

/-- **C1** (corrected, amended claim): for the concrete candle row
`[t, 100, 90, 95, 80, 1000]`, `parseOHLCV` returns exactly
`[t*1000, 95, 90, 100, 80, 1000]`. -/
theorem parseOHLCV_example (t : ℚ) :
    parseOHLCV [t, 100, 90, 95, 80, 1000] = [t * 1000, 95, 90, 100, 80, 1000] := rfl

/-- **C2** (confirmed): every 6-element candle row in upstream order
`[time, low, high, open, close, volume]` is permuted to
`[time, open, high, low, close, volume]` with the timestamp multiplied
by 1000. -/
theorem parseOHLCV_permutation (t lo hi op cl vol : ℚ) :
    parseOHLCV [t, lo, hi, op, cl, vol] = [t * 1000, op, hi, lo, cl, vol] := rfl

/-- **C5** (confirmed): `parseTrade` inverts the reported side exactly once:
payload side `"buy"` yields canonical side `"sell"`, and payload side
`"sell"` yields canonical side `"buy"`. -/
theorem parseTrade_side_inversion (ctx : NormCtx) (trade : RawTrade) (market : Option Market) :
    (trade.side = "buy" → (parseTrade ctx trade market).side = "sell") ∧
    (trade.side = "sell" → (parseTrade ctx trade market).side = "buy") := by
  constructor <;> intro h <;> simp [parseTrade, h]

/-- **C5** witness: the inversion evaluated on one buy and one sell payload. -/
theorem parseTrade_side_inversion_witness :
    (parseTrade testNormCtx rawBuyTrade none).side = "sell" ∧
    (parseTrade testNormCtx rawSellTrade none).side = "buy" :=
  ⟨(parseTrade_side_inversion testNormCtx rawBuyTrade none).1 rfl,
   (parseTrade_side_inversion testNormCtx rawSellTrade none).2 rfl⟩

/-- **C6** (confirmed): `parseOrder` resolves the canonical amount by trying
`size`, then `funds`, then `specified_funds` in strict order, stopping at
the first defined value; in particular when both `size` and `funds` are
defined the amount equals `size`'s value. -/
theorem parseOrder_amount_resolution (ctx : NormCtx) (order : RawOrder) (market : Option Market) :
    (∀ v, order.size = some v → (parseOrder ctx order market).amount = some v) ∧
    (order.size = none → ∀ v, order.funds = some v →
      (parseOrder ctx order market).amount = some v) ∧
    (order.size = none → order.funds = none →
      (parseOrder ctx order market).amount = order.specified_funds) := by
  refine ⟨?_, ?_, ?_⟩
  · intro v hv; simp [parseOrder, hv]
  · intro hs v hv; simp [parseOrder, hs, hv]
  · intro hs hf; simp [parseOrder, hs, hf]

/-- **C6** witness: on a payload with `size = 2` and `funds = 3`, the
normalized amount is `2`. -/
theorem parseOrder_amount_resolution_witness :
    (parseOrder testNormCtx rawOrderBoth none).amount = some 2 :=
  (parseOrder_amount_resolution testNormCtx rawOrderBoth none).1 2 rfl

/-- **C7** (confirmed): for every raw product normalized by `fetchMarkets`,
a base currency of ETH or LTC forces the taker fee to `0.003` regardless
of the global trading-fee default, and every other base currency receives
the global default. -/
theorem fetchMarkets_taker_fee (ctx : MarketCtx) (fees : TradingFees)
    (raws : List RawMarket) (raw : RawMarket) (h : raw ∈ raws) :
    normalizeMarket ctx fees raw ∈ fetchMarkets ctx fees raws ∧
    ((raw.base_currency = "ETH" ∨ raw.base_currency = "LTC") →
      (normalizeMarket ctx fees raw).taker = 0.003) ∧
    (raw.base_currency ≠ "ETH" → raw.base_currency ≠ "LTC" →
      (normalizeMarket ctx fees raw).taker = fees.taker) := by
  refine ⟨List.mem_map_of_mem _ h, ?_, ?_⟩
  · intro hb; simp [normalizeMarket, hb]
  · intro h1 h2; simp [normalizeMarket, h1, h2]

/-- **C7** witness: an ETH market in a one-element product list is
normalized with taker `0.003` even though the global default is `0.0025`. -/
theorem fetchMarkets_taker_fee_witness :
    (normalizeMarket testMarketCtx describeTradingFees rawMarketETH).taker = 0.003 ∧
    normalizeMarket testMarketCtx describeTradingFees rawMarketETH ∈
      fetchMarkets testMarketCtx describeTradingFees [rawMarketETH] ∧
    describeTradingFees.taker ≠ 0.003 :=
  ⟨(fetchMarkets_taker_fee testMarketCtx describeTradingFees [rawMarketETH] rawMarketETH
      (List.mem_singleton.mpr rfl)).2.1 (Or.inl rfl),
   (fetchMarkets_taker_fee testMarketCtx describeTradingFees [rawMarketETH] rawMarketETH
      (List.mem_singleton.mpr rfl)).1,
   by norm_num [describeTradingFees]⟩

/-- Reduction of `handleErrors` on a status-400 body that starts with a
brace, parses, and carries a `message` field: the result is the
five-way dispatch on the message. -/
theorem handleErrors_reduce_json (parse : String → Option (List (String × String)))
    (body : String) (fields : List (String × String)) (message : String) (cs : List Char)
    (hbt : body.data = '\x7b' :: cs)
    (hparse : parse body = some fields)
    (hmsg : List.lookup "message" fields = some message) :
    handleErrors parse 400 body =
      (if strContains message "price too small" then
        .throws (.invalidOrder (exchangeId ++ " " ++ message))
      else if strContains message "price too precise" then
        .throws (.invalidOrder (exchangeId ++ " " ++ message))
      else if message = "Insufficient funds" then
        .throws (.insufficientFunds (exchangeId ++ " " ++ message))
      else if message = "Invalid API Key" then
        .throws (.authenticationError (exchangeId ++ " " ++ message))
      else .throws (.exchangeError (exchangeId ++ " " ++ message))) := by
  simp [handleErrors, hbt, hparse, hmsg]

/-- Reduction of `handleErrors` on a status-400 body whose first character
is not a brace: a generic exchange error wrapping the raw body. -/
theorem handleErrors_reduce_nonjson (parse : String → Option (List (String × String)))
    (body : String) (h : body.data.head? ≠ some '\x7b') :
    handleErrors parse 400 body = .throws (.exchangeError (exchangeId ++ " " ++ body)) := by
  cases hbt : body.data with
  | nil => simp [handleErrors, hbt]
  | cons c cs =>
    rw [hbt] at h
    have hc : c ≠ '\x7b' := by simpa using h
    simp [handleErrors, hbt, hc]

/-- **C4** (confirmed): for a status-400 response whose body is a JSON
object (first character a brace, body parses, `message` field present),
`handleErrors` dispatches in the source's precedence: a message containing
"price too small" throws InvalidOrder; then one containing
"price too precise" throws InvalidOrder; then "Insufficient funds" throws
InsufficientFunds; then "Invalid API Key" throws AuthenticationError; any
other message throws a generic ExchangeError carrying the message; and a
status-400 body not starting with a brace throws a generic ExchangeError
carrying the raw body text. -/
theorem handleErrors_400_dispatch (parse : String → Option (List (String × String)))
    (body : String) (fields : List (String × String)) (message : String) :
    (body.toList.head? = some '\x7b' → parse body = some fields →
      List.lookup "message" fields = some message →
      ((strContains message "price too small" = true →
          handleErrors parse 400 body =
            .throws (.invalidOrder (exchangeId ++ " " ++ message))) ∧
       (strContains message "price too small" = false →
          strContains message "price too precise" = true →
          handleErrors parse 400 body =
            .throws (.invalidOrder (exchangeId ++ " " ++ message))) ∧
       (message = "Insufficient funds" →
          handleErrors parse 400 body =
            .throws (.insufficientFunds (exchangeId ++ " " ++ message))) ∧
       (message = "Invalid API Key" →
          handleErrors parse 400 body =
            .throws (.authenticationError (exchangeId ++ " " ++ message))) ∧
       (strContains message "price too small" = false →
          strContains message "price too precise" = false →
          message ≠ "Insufficient funds" → message ≠ "Invalid API Key" →
          handleErrors parse 400 body =
            .throws (.exchangeError (exchangeId ++ " " ++ message))))) ∧
    (body.toList.head? ≠ some '\x7b' →
      handleErrors parse 400 body = .throws (.exchangeError (exchangeId ++ " " ++ body))) := by
  constructor
  · intro hbrace hparse hmsg
    obtain ⟨cs, hbt⟩ : ∃ cs, body.data = '\x7b' :: cs := by
      cases h : body.data with
      | nil =>
        rw [show body.toList = body.data from rfl, h] at hbrace
        simp at hbrace
      | cons c cs =>
        rw [show body.toList = body.data from rfl, h] at hbrace
        simp at hbrace
        exact ⟨cs, by rw [hbrace]⟩
    rw [handleErrors_reduce_json parse body fields message cs hbt hparse hmsg]
    refine ⟨?_, ?_, ?_, ?_, ?_⟩
    · intro hsmall
      simp [hsmall]
    · intro hsmall hprecise
      simp [hsmall, hprecise]
    · intro hm
      subst hm
      have e1 : strContains "Insufficient funds" "price too small" = false := by decide
      have e2 : strContains "Insufficient funds" "price too precise" = false := by decide
      simp [e1, e2]
    · intro hm
      subst hm
      have e1 : strContains "Invalid API Key" "price too small" = false := by decide
      have e2 : strContains "Invalid API Key" "price too precise" = false := by decide
      simp [e1, e2]
    · intro hsmall hprecise h3 h4
      simp [hsmall, hprecise, h3, h4]
  · intro hbrace
    exact handleErrors_reduce_nonjson parse body hbrace

/-- **C4** witness: the dispatch evaluated on a JSON body reporting
"Insufficient funds" and on a non-JSON body. -/
theorem handleErrors_400_dispatch_witness :
    handleErrors (fun _ => some [("message", "Insufficient funds")]) 400
        "\x7b\x22message\x22:\x22Insufficient funds\x22\x7d" =
      .throws (.insufficientFunds "gdax Insufficient funds") ∧
    handleErrors (fun _ => none) 400 "service unavailable" =
      .throws (.exchangeError "gdax service unavailable") :=
  ⟨((handleErrors_400_dispatch (fun _ => some [("message", "Insufficient funds")])
      "\x7b\x22message\x22:\x22Insufficient funds\x22\x7d"
      [("message", "Insufficient funds")] "Insufficient funds").1
        rfl rfl rfl).2.2.1 rfl,
   (handleErrors_400_dispatch (fun _ => none) "service unavailable" [] "").2 (by decide)⟩

/-- A parameter object without a given key yields no association-lookup
result for that key. -/
theorem lookup_none_of_hasKey_false (params : List (String × Val)) (key : String)
    (h : hasKey params key = false) : List.lookup key params = none := by
  induction params with
  | nil => rfl
  | cons kv rest ih =>
    simp only [hasKey, List.any_cons, Bool.or_eq_false_iff] at h
    obtain ⟨h1, h2⟩ := h
    have hne : (key == kv.1) = false := by
      simp only [decide_eq_false_iff_not] at h1
      exact beq_eq_false_iff_ne.mpr (Ne.symm h1)
    simpa [List.lookup, hne] using ih h2

/-- **C8** (confirmed): when the extra parameters contain neither
`payment_method_id` nor `coinbase_account_id`, `deposit` throws
NotSupported before issuing any request, while `withdraw` routes to the
crypto-address variant (`privatePostWithdrawalsCrypto`) and places the
supplied address in the request under `crypto_address` (the caller not
having supplied a `crypto_address` parameter of its own). -/
theorem deposit_withdraw_routing (currency : String) (amount : ℚ) (address : String)
    (params : List (String × Val))
    (h1 : hasKey params "payment_method_id" = false)
    (h2 : hasKey params "coinbase_account_id" = false)
    (h3 : hasKey params "crypto_address" = false) :
    deposit currency amount address params =
      .error (.notSupported (exchangeId ++
        " deposit() requires one of `coinbase_account_id` or `payment_method_id` extra params")) ∧
    (withdraw currency amount address params).toOption.map Prod.fst =
      some "privatePostWithdrawalsCrypto" ∧
    (withdraw currency amount address params).toOption.bind
        (fun r => List.lookup "crypto_address" r.2) =
      some (.str address) := by
  have hlook : List.lookup "crypto_address" params = none :=
    lookup_none_of_hasKey_false params "crypto_address" h3
  have e1 : ("crypto_address" == "currency") = false := by decide
  have e2 : ("crypto_address" == "amount") = false := by decide
  have e3 : ("crypto_address" == "crypto_address") = true := by decide
  refine ⟨?_, ?_, ?_⟩
  · simp [deposit, h1, h2]
  · simp [withdraw, h1, h2, Except.toOption]
  · rcases hcu : List.lookup "currency" params with _ | v1 <;>
      rcases ham : List.lookup "amount" params with _ | v2 <;>
        simp [withdraw, h1, h2, extend, hlook, hcu, ham, Except.toOption, List.lookup,
          e1, e2, e3]

/-- **C8** witness: routing evaluated with empty extra parameters. -/
theorem deposit_withdraw_routing_witness :
    deposit "BTC" 1 "addr" [] =
      .error (.notSupported (exchangeId ++
        " deposit() requires one of `coinbase_account_id` or `payment_method_id` extra params")) ∧
    (withdraw "BTC" 1 "addr" []).toOption.map Prod.fst =
      some "privatePostWithdrawalsCrypto" ∧
    (withdraw "BTC" 1 "addr" []).toOption.bind
        (fun r => List.lookup "crypto_address" r.2) =
      some (.str "addr") :=
  deposit_withdraw_routing "BTC" 1 "addr" [] rfl rfl rfl

/-- **C10** (confirmed): in `fetchOHLCV`, with `since` provided and `limit`
absent, `limit` defaults to 350 and the request carries
`end = YmdHMS (since + 350 * granularity * 1000)` alongside
`start = YmdHMS since`; with `since` absent, the request is exactly the
id/granularity pair, with no `start` or `end` parameter. -/
theorem fetchOHLCV_request_params (Y : Int → String) (marketId tf : String) (g : Nat)
    (s : Int) (limit : Option Nat)
    (hg : List.lookup tf timeframes = some g) :
    fetchOHLCVRequest Y marketId tf (some s) none =
      some [("id", .str marketId), ("granularity", .num (g : ℚ)),
            ("start", .str (Y s)), ("end", .str (Y (s + 350 * g * 1000)))] ∧
    fetchOHLCVRequest Y marketId tf none limit =
      some [("id", .str marketId), ("granularity", .num (g : ℚ))] := by
  constructor
  · simp only [fetchOHLCVRequest, hg, Option.getD]
    have harg : ((350 * g * 1000 : Nat) : Int) + s = s + 350 * g * 1000 := by
      push_cast
      ring
    rw [harg]
    simp
  · simp [fetchOHLCVRequest, hg]

/-- **C10** witness: the request evaluated for the `"1m"` timeframe
(granularity 60) at `since = 0`, with and without `since`. -/
theorem fetchOHLCV_request_params_witness :
    fetchOHLCVRequest (fun i => toString i) "BTC-USD" "1m" (some 0) none =
      some [("id", .str "BTC-USD"), ("granularity", .num ((60 : Nat) : ℚ)),
            ("start", .str (toString (0 : Int))),
            ("end", .str (toString ((0 : Int) + 350 * (60 : Nat) * 1000)))] ∧
    fetchOHLCVRequest (fun i => toString i) "BTC-USD" "1m" none none =
      some [("id", .str "BTC-USD"), ("granularity", .num ((60 : Nat) : ℚ))] :=
  fetchOHLCV_request_params (fun i => toString i) "BTC-USD" "1m" 60 0 none rfl

/-- Closed form of `sign` on a private call with all credentials present:
the URL is the api base plus the request path, the body is the
JSON-serialized leftover query for a non-GET with a non-empty query
(otherwise the incoming body), and the five headers carry the key, the
signature over `nonce + method + requestPath + payload`, the nonce, the
passphrase, and the JSON content type. -/
theorem sign_private_reduce (env : SignEnv) (path method : String)
    (params : List (String × String)) (hdrs : Option (List (String × String)))
    (body : Option String) (apiKey secret password : String)
    (hak : env.apiKey = some apiKey) (hse : env.secret = some secret)
    (hpw : env.password = some password) :
    sign env path "private" method params hdrs body =
      .ok { url := apiUrl ++ requestPath env path method params
            method := method
            body :=
              if method ≠ "GET" ∧ omitKeys params (extractParams path) ≠ [] then
                some (env.json (omitKeys params (extractParams path)))
              else body
            headers := some
              [("CB-ACCESS-KEY", apiKey),
               ("CB-ACCESS-SIGN", env.hmacSig secret
                 (toString env.nonce ++ method ++ requestPath env path method params ++
                   (if method ≠ "GET" ∧ omitKeys params (extractParams path) ≠ [] then
                      env.json (omitKeys params (extractParams path))
                    else ""))),
               ("CB-ACCESS-TIMESTAMP", toString env.nonce),
               ("CB-ACCESS-PASSPHRASE", password),
               ("Content-Type", "application/json")] } := by
  by_cases hc : method ≠ "GET" ∧ omitKeys params (extractParams path) ≠ []
  · simp [sign, hak, hse, hpw, hc]
  · simp [sign, hak, hse, hpw, hc]

/-- **C3** (confirmed): for every private request built by `sign` (body
argument absent, as in every call this adapter issues), the string handed
to the HMAC is the exact concatenation `nonce + method + requestPath +
body` with `body` the empty string when the descriptor carries no body —
in particular for every GET; and for every non-GET with leftover query
parameters the JSON serialization used as the signing payload is the very
string placed in the returned descriptor's body. -/
theorem sign_signing_string (env : SignEnv) (path method : String)
    (params : List (String × String)) (hdrs : Option (List (String × String)))
    (res : SignResult)
    (h : sign env path "private" method params hdrs none = .ok res) :
    List.lookup "CB-ACCESS-SIGN" (res.headers.getD []) =
      some (env.hmacSig (env.secret.getD "")
        (toString env.nonce ++ method ++ requestPath env path method params ++
          res.body.getD "")) ∧
    (method = "GET" → res.body = none) ∧
    (method ≠ "GET" → omitKeys params (extractParams path) ≠ [] →
      res.body = some (env.json (omitKeys params (extractParams path)))) := by
  rcases hak : env.apiKey with _ | apiKey
  · simp [sign, hak] at h
  rcases hse : env.secret with _ | secret
  · simp [sign, hak, hse] at h
  rcases hpw : env.password with _ | password
  · simp [sign, hak, hse, hpw] at h
  rw [sign_private_reduce env path method params hdrs none apiKey secret password
    hak hse hpw] at h
  have hres : res = _ := (Except.ok.inj h).symm
  subst hres
  have kb1 : ("CB-ACCESS-SIGN" == "CB-ACCESS-KEY") = false := by decide
  have kb2 : ("CB-ACCESS-SIGN" == "CB-ACCESS-SIGN") = true := by decide
  by_cases hc : method ≠ "GET" ∧ omitKeys params (extractParams path) ≠ []
  · refine ⟨?_, ?_, ?_⟩
    · simp [List.lookup, kb1, kb2, hse, hc]
    · intro hm
      exact absurd hm hc.1
    · intro _ _
      simp [hc]
  · refine ⟨?_, ?_, ?_⟩
    · simp [List.lookup, kb1, kb2, hse, hc]
    · intro _
      simp [hc]
    · intro hne hq
      exact absurd ⟨hne, hq⟩ hc

/-- A concrete signing environment with simple external primitives. -/
def testEnv : SignEnv :=
  { apiKey := some "k"
    secret := some "s"
    password := some "p"
    nonce := 1
    urlencode := fun q => String.join (q.map (fun kv => kv.1 ++ "=" ++ kv.2))
    json := fun q => String.join (q.map (fun kv => kv.1 ++ ":" ++ kv.2))
    hmacSig := fun secret what => secret ++ "|" ++ what }

/-- Success payload of a `sign` call (test helper). -/
def getOk (e : Except GdaxError SignResult) : SignResult :=
  match e with
  | .ok r => r
  | .error _ => { url := "", method := "", body := none, headers := none }

/-- The descriptor `sign` builds for a private POST to `orders` with one
leftover query parameter. -/
def c3res : SignResult :=
  getOk (sign testEnv "orders" "private" "POST" [("side", "buy")] none none)

/-- **C3** witness: the signing-string law evaluated on a private POST to
`orders` with query `side=buy`. -/
theorem sign_signing_string_witness :
    List.lookup "CB-ACCESS-SIGN" (c3res.headers.getD []) =
      some (testEnv.hmacSig (testEnv.secret.getD "")
        (toString testEnv.nonce ++ "POST" ++
          requestPath testEnv "orders" "POST" [("side", "buy")] ++ c3res.body.getD "")) ∧
    ("POST" = "GET" → c3res.body = none) ∧
    ("POST" ≠ "GET" → omitKeys [("side", "buy")] (extractParams "orders") ≠ [] →
      c3res.body = some (testEnv.json (omitKeys [("side", "buy")] (extractParams "orders")))) :=
  sign_signing_string testEnv "orders" "POST" [("side", "buy")] none c3res rfl

/-- The descriptor `sign` builds for a private GET to `time`. -/
def c9res : SignResult :=
  getOk (sign testEnv "time" "private" "GET" [] none none)

/-- **C9** (corrected) — counterexample to the claim as stated: the private
GET request to `time` carries no body, yet its headers do contain
`Content-Type: application/json` (the source sets the header
unconditionally for private requests). -/
theorem sign_contentType_cex :
    c9res.body = none ∧
    List.lookup "Content-Type" (c9res.headers.getD []) = some "application/json" :=
  ⟨rfl, rfl⟩

/-- **C9** (corrected, amended claim): for every private request built by
`sign`, the headers always include `Content-Type: application/json`,
whether or not the request carries a body — in particular a private GET
request is also emitted with the Content-Type header. -/
theorem sign_contentType_always (env : SignEnv) (path method : String)
    (params : List (String × String)) (hdrs : Option (List (String × String)))
    (body : Option String) (res : SignResult)
    (h : sign env path "private" method params hdrs body = .ok res) :
    List.lookup "Content-Type" (res.headers.getD []) = some "application/json" := by
  rcases hak : env.apiKey with _ | apiKey
  · simp [sign, hak] at h
  rcases hse : env.secret with _ | secret
  · simp [sign, hak, hse] at h
  rcases hpw : env.password with _ | password
  · simp [sign, hak, hse, hpw] at h
  rw [sign_private_reduce env path method params hdrs body apiKey secret password
    hak hse hpw] at h
  have hres : res = _ := (Except.ok.inj h).symm
  subst hres
  have ct1 : ("Content-Type" == "CB-ACCESS-KEY") = false := by decide
  have ct2 : ("Content-Type" == "CB-ACCESS-SIGN") = false := by decide
  have ct3 : ("Content-Type" == "CB-ACCESS-TIMESTAMP") = false := by decide
  have ct4 : ("Content-Type" == "CB-ACCESS-PASSPHRASE") = false := by decide
  have ct5 : ("Content-Type" == "Content-Type") = true := by decide
  simp [List.lookup, ct1, ct2, ct3, ct4, ct5]

/-- The descriptor `sign` builds for a private GET to `accounts`. -/
def c9wres : SignResult :=
  getOk (sign testEnv "accounts" "private" "GET" [] none none)

/-- **C9** witness: the amended claim evaluated on a private GET to
`accounts`. -/
theorem sign_contentType_always_witness :
    List.lookup "Content-Type" (c9wres.headers.getD []) = some "application/json" :=
  sign_contentType_always testEnv "accounts" "GET" [] none none c9wres rfl

end Gdax
